import Mathlib

/-!
Verification of the event-recommendation engine (`agent.py` / `core.py`).

The engine is shallowly embedded: Python dicts for sessions become a
structure with `Option` fields for the keys the code reads via `.get`
(`tags`, `popularity`, `start`, `end`); Python floats become `ℚ`;
Python's stable `sorted(..., key=score, reverse=True)` is embedded as
insertion sort with the descending-by-score relation (the unique stable
descending sort); Python list slicing `l[:n]` (which, for negative `n`,
keeps all but the last `|n|` elements) is embedded as `pySlice`.
Manifest loading, HTTP serving and the Graph network layer are outside
the engine; `recommend_from_graph`'s event fetch is abstracted as a
function argument, exactly the role `graph_service.get_events` plays.
-/

namespace EventAgent

/-- A session dict. `title` is required (the code indexes `s["title"]`);
`tags`, `popularity`, `start` and `end` are read with `.get` and so may be
absent. The Python `end` key is called `stop` here (`end` is a Lean
keyword). Other keys (`location`, `id`, ...) are never read by the engine. -/
structure Session where
  title : String
  tags : Option (List String)
  popularity : Option ℚ
  start : Option String
  stop : Option String
  deriving DecidableEq, Repr

/-- The weight dict `w` with keys `interest`, `popularity`, `diversity`. -/
structure Weights where
  interest : ℚ
  popularity : ℚ
  diversity : ℚ
  deriving DecidableEq, Repr

/-- The `contributions` dict built by `score_session`. -/
structure Contributions where
  interest_match : ℚ
  popularity : ℚ
  diversity : ℚ
  deriving DecidableEq, Repr

/-- The dict returned by `score_session`. -/
structure ScoredSession where
  session : Session
  score : ℚ
  contributions : Contributions
  deriving DecidableEq, Repr

/-- Python's `str.lower()` on the ASCII range, as the engine applies it to
tags, interests and titles. (Equivalent to `String.toLower`, but defined by
structural recursion so that concrete instances evaluate in the kernel.) -/
def pyLower (s : String) : String := String.mk (s.data.map Char.toLower)

/-- `score_session` from `agent.py`:
tags are lowercased, hits are tags contained in `interests`,
the diversity component is `len(set(interests)) * 0.01 * w["diversity"]`,
and the score is the sum of the three contribution values. -/
def score_session (session : Session) (interests : List String) (w : Weights) :
    ScoredSession :=
  let tags := (session.tags.getD []).map (fun t => pyLower t)
  let interest_hits : ℕ := tags.countP (fun t => interests.contains t)
  let diversity_component : ℚ := (interests.dedup.length : ℚ) * (1 / 100) * w.diversity
  let contributions : Contributions :=
    { interest_match := (interest_hits : ℚ) * w.interest
      popularity := session.popularity.getD 0 * w.popularity
      diversity := diversity_component }
  { session := session
    score := contributions.interest_match + contributions.popularity
      + contributions.diversity
    contributions := contributions }

/-- The manifest, reduced to the two fields `recommend` reads:
`manifest["weights"]` and the candidate pool `get_sessions(manifest)`
(external-session file loading is I/O outside the engine; the pool is
whatever list of sessions it produced). -/
structure Manifest where
  weights : Weights
  sessions : List Session
  deriving DecidableEq, Repr

/-- Descending-by-score ordering used by
`sorted(scored, key=lambda x: x["score"], reverse=True)`. -/
def scoreGE (a b : ScoredSession) : Prop := b.score ≤ a.score

instance : DecidableRel scoreGE :=
  fun a b => inferInstanceAs (Decidable (b.score ≤ a.score))

instance : IsTotal ScoredSession scoreGE := ⟨fun a b => le_total b.score a.score⟩

instance : IsTrans ScoredSession scoreGE := ⟨fun _ _ _ h1 h2 => le_trans h2 h1⟩

/-- Python list slicing `l[:n]` for an `int` `n`: for `n ≥ 0` the first
`n` elements; for `n < 0` all but the last `|n|` elements (empty when
`|n| ≥ len(l)`). -/
def pySlice {α : Type} (n : Int) (l : List α) : List α :=
  if 0 ≤ n then l.take n.toNat else l.take ((l.length : Int) + n).toNat

/-- One entry of the `scoring` list built by `recommend`. -/
structure ScoringEntry where
  title : String
  score : ℚ
  contributions : Contributions
  deriving DecidableEq, Repr

/-- The scoring entry `recommend` builds from a scored session. -/
def mkEntry (r : ScoredSession) : ScoringEntry :=
  { title := r.session.title, score := r.score, contributions := r.contributions }

/-- The `(s.get("start"), s.get("end"))` slot key used by `_count_conflicts`. -/
def slotKey (s : Session) : Option String × Option String := (s.start, s.stop)

/-- `_count_conflicts` from `agent.py`: tally sessions per `(start, end)`
key and count the keys whose tally exceeds one. The Python dict maps each
distinct key to its multiplicity in the list, so the result is the number
of distinct keys occurring more than once. -/
def count_conflicts (sessions : List Session) : ℕ :=
  let keys := sessions.map slotKey
  (keys.dedup.filter (fun k => decide (1 < keys.count k))).length

/-- The dict returned by `recommend`. -/
structure RecommendResult where
  sessions : List Session
  scoring : List ScoringEntry
  conflicts : ℕ
  deriving DecidableEq, Repr

/-- `recommend` from `agent.py`: score every candidate, stable-sort
descending by score, slice to `top_n`, and count conflicts over the
sliced list only. -/
def recommend (manifest : Manifest) (interests : List String) (top_n : Int) :
    RecommendResult :=
  let w := manifest.weights
  let scored := manifest.sessions.map (fun s => score_session s interests w)
  let ranked := pySlice top_n (List.insertionSort scoreGE scored)
  { sessions := ranked.map (fun r => r.session)
    scoring := ranked.map mkEntry
    conflicts := count_conflicts (ranked.map (fun r => r.session)) }

/-- Result of `explain`: either the not-found dict
`{"error": "session not found", "title": title}` or the detail dict. -/
inductive ExplainResult where
  | notFound (title : String)
  | found (title : String) (score : ℚ) (contributions : Contributions)
      (matched_tags : List String)
  deriving DecidableEq, Repr

/-- `explain` from `agent.py`: first session whose lowercased title equals
the lowercased query, else the structured not-found result. -/
def explain (manifest : Manifest) (title : String) (interests : List String) :
    ExplainResult :=
  match manifest.sessions.find? (fun s => pyLower s.title == pyLower title) with
  | none => ExplainResult.notFound title
  | some session =>
      let detail := score_session session interests manifest.weights
      ExplainResult.found session.title detail.score detail.contributions
        ((session.tags.getD []).filter (fun t => interests.contains (pyLower t)))

/-- The dict returned by `recommend_from_graph` (always carries
`"source": "graph"`; `message` only on the empty-calendar path). -/
structure GraphResult where
  sessions : List Session
  scoring : List ScoringEntry
  conflicts : ℕ
  source : String
  message : Option String
  deriving DecidableEq, Repr

/-- Default weights of `recommend_from_graph`:
`{"interest": 2.0, "popularity": 0.5, "diversity": 0.3}`. -/
def defaultGraphWeights : Weights :=
  { interest := 2, popularity := 1 / 2, diversity := 3 / 10 }

/-- `recommend_from_graph` from `core.py`. The event source
`graph_service.get_events(top=top * 2)` is abstracted as the function
argument `getEvents`, applied at `top * 2`; a raised `ValueError` becomes
`Except.error` carrying the message. Validation runs before any fetch. -/
def recommend_from_graph (getEvents : Int → List Session)
    (interests : List String) (top : Int) (weights : Option Weights) :
    Except String GraphResult :=
  if interests.isEmpty then Except.error ("At least one interest is required")
  else if top ≤ 0 then Except.error ("top must be a positive integer")
  else
    let w := weights.getD defaultGraphWeights
    let normalized :=
      (interests.filter (fun i => !(i.trim.isEmpty))).map (fun i => (pyLower i).trim)
    let sessions := getEvents (top * 2)
    if sessions.isEmpty then
      Except.ok { sessions := [], scoring := [], conflicts := 0
                  source := "graph"
                  message := some ("No events found in calendar") }
    else
      let scored := sessions.map (fun s => score_session s normalized w)
      let ranked := pySlice top (List.insertionSort scoreGE scored)
      Except.ok { sessions := ranked.map (fun r => r.session)
                  scoring := ranked.map mkEntry
                  conflicts := count_conflicts (ranked.map (fun r => r.session))
                  source := "graph"
                  message := none }

/-! Concrete data for witnesses. -/

/-- Example weights (the manifest defaults). -/
def exW : Weights := { interest := 2, popularity := 1 / 2, diversity := 3 / 10 }

/-- A session with every optional key present. -/
def exA : Session :=
  { title := "Alpha", tags := some [("ai")], popularity := some (4 / 5)
    start := some ("9:00"), stop := some ("10:00") }

/-- A second session sharing `exA`'s slot. -/
def exB : Session :=
  { title := "Beta", tags := some [("ai")], popularity := some (1 / 5)
    start := some ("9:00"), stop := some ("10:00") }

/-- A session whose `tags` and `popularity` keys are absent. -/
def exNone : Session :=
  { title := "Bare", tags := none, popularity := none
    start := none, stop := none }

/-- A two-session manifest. -/
def exM : Manifest := { weights := exW, sessions := [exA, exB] }

/-- An interest list. -/
def exI : List String := [("ai")]

/-- An event source returning no events. -/
def exG0 : Int → List Session := fun _ => []

/-- An event source returning one event. -/
def exG1 : Int → List Session := fun _ => [exA]

/-- **C1.** `score_session` returns `interest_match` = (number of the
session's tags whose lowercased form equals some interest string) ×
`w.interest`, `popularity` = the session's popularity × `w.popularity`,
`diversity` = (number of distinct interest strings) × 0.01 ×
`w.diversity`, and a `score` equal to the exact sum of the three
contributions. -/
theorem score_session_spec (session : Session) (interests : List String)
    (w : Weights) :
    (score_session session interests w).contributions.interest_match
        = ((session.tags.getD []).countP
            (fun t => interests.contains (pyLower t)) : ℚ) * w.interest
      ∧ (score_session session interests w).contributions.popularity
        = session.popularity.getD 0 * w.popularity
      ∧ (score_session session interests w).contributions.diversity
        = (interests.toFinset.card : ℚ) * (1 / 100) * w.diversity
      ∧ (score_session session interests w).score
        = (score_session session interests w).contributions.interest_match
          + (score_session session interests w).contributions.popularity
          + (score_session session interests w).contributions.diversity := by
  refine ⟨?_, rfl, ?_, rfl⟩
  · exact congrArg (fun n : ℕ => (n : ℚ) * w.interest)
      ((List.countP_map _ _ _).trans rfl)
  · exact congrArg (fun n : ℕ => (n : ℚ) * (1 / 100) * w.diversity)
      (List.card_toFinset interests).symm

/-- **C8.** The diversity contribution depends only on the interest list
and the weights, never on the session: any two sessions scored in the
same call receive the same diversity contribution. -/
theorem diversity_uniform (s1 s2 : Session) (interests : List String)
    (w : Weights) :
    (score_session s1 interests w).contributions.diversity
      = (score_session s2 interests w).contributions.diversity := rfl

/-- **C10.** `score_session` is total on sessions missing optional keys:
an absent `tags` key yields an `interest_match` contribution of `0`, and
an absent `popularity` key yields a `popularity` contribution of `0`. -/
theorem score_session_missing_keys (s : Session) (interests : List String)
    (w : Weights) :
    (s.tags = none →
        (score_session s interests w).contributions.interest_match = 0)
      ∧ (s.popularity = none →
        (score_session s interests w).contributions.popularity = 0) := by
  constructor
  · intro h
    simp [score_session, h]
  · intro h
    simp [score_session, h]

/-- Witness for **C10** at a concrete session lacking both keys. -/
theorem score_session_missing_keys_witness :
    (score_session exNone exI exW).contributions.interest_match = 0
      ∧ (score_session exNone exI exW).contributions.popularity = 0 :=
  ⟨(score_session_missing_keys exNone exI exW).1 rfl,
   (score_session_missing_keys exNone exI exW).2 rfl⟩

/-- **C6.** The conflict count reported by `recommend` is computed over
the truncated ranked result (its `sessions` field) only, not over the
full candidate pool. -/
theorem recommend_conflicts_truncated (m : Manifest) (interests : List String)
    (top_n : Int) :
    (recommend m interests top_n).conflicts
      = count_conflicts ((recommend m interests top_n).sessions) := rfl

/-- **C5.** `count_conflicts` groups sessions by string-equality of the
`(start, end)` pair and returns the number of groups with more than one
member: three sessions in one slot contribute `1`; two sessions in
distinct slots contribute `0`; in general the count is the number of
distinct slot keys occurring more than once. -/
theorem count_conflicts_spec :
    (∀ s1 s2 s3 : Session, slotKey s1 = slotKey s2 → slotKey s2 = slotKey s3 →
        count_conflicts [s1, s2, s3] = 1)
      ∧ (∀ s1 s2 : Session, slotKey s1 ≠ slotKey s2 →
        count_conflicts [s1, s2] = 0)
      ∧ ∀ l : List Session,
        count_conflicts l
          = ((l.map slotKey).toFinset.filter
              (fun k => 1 < (l.map slotKey).count k)).card := by
  refine ⟨?_, ?_, ?_⟩
  · intro s1 s2 s3 h12 h23
    simp [count_conflicts, h12, h23, List.dedup_cons_of_mem, List.count_cons]
  · intro s1 s2 h
    simp [count_conflicts, List.count_cons, h, Ne.symm h]
  · intro l
    have hdt : ((l.map slotKey).dedup).toFinset = (l.map slotKey).toFinset :=
      List.toFinset_eq_iff_perm_dedup.mpr (by rw [List.dedup_idem])
    have hnd : ((l.map slotKey).dedup.filter
        (fun k => decide (1 < (l.map slotKey).count k))).Nodup :=
      (l.map slotKey).nodup_dedup.filter _
    rw [count_conflicts, ← List.toFinset_card_of_nodup hnd,
      List.toFinset_filter, hdt]
    simp

/-- Witness for **C5** at concrete slots. -/
theorem count_conflicts_spec_witness :
    count_conflicts [exA, exB, exA] = 1 ∧ count_conflicts [exA, exNone] = 0 :=
  ⟨count_conflicts_spec.1 exA exB exA (by decide) (by decide),
   count_conflicts_spec.2.1 exA exNone (by decide)⟩

/-- **C3.** For a positive `top_n`, the ranked list returned by
`recommend` has length `min top_n (number of candidates)`: when fewer
than `top_n` sessions exist, all are returned, with no padding and no
error. -/
theorem recommend_top_length (m : Manifest) (interests : List String)
    (top_n : Int) (h : 0 < top_n) :
    ((recommend m interests top_n).sessions).length
      = min top_n.toNat m.sessions.length := by
  simp only [recommend, pySlice, if_pos h.le, List.length_map,
    List.length_take, List.length_insertionSort]

/-- Witness for **C3**: two candidates, `top_n = 3`. -/
theorem recommend_top_length_witness :
    (0 : Int) < 3 ∧ ((recommend exM exI 3).sessions).length
      = min (3 : Int).toNat exM.sessions.length :=
  ⟨by decide, recommend_top_length exM exI 3 (by decide)⟩

/-- Counterexample to **C4** as stated: with the two-session pool `exM`
and `top_n = -1 ≤ 0`, `recommend` returns a non-empty ranked list
(Python's `[:top_n]` slice drops elements from the end for negative
`top_n` instead of producing the empty list). -/
theorem recommend_nonpositive_top_counterexample :
    (-1 : Int) ≤ 0 ∧ (recommend exM exI (-1)).sessions ≠ [] := by
  refine ⟨by decide, ?_⟩
  have h : (recommend exM exI (-1)).sessions.length = 1 := by
    simp only [recommend, pySlice]
    rw [if_neg (by decide : ¬ ((0 : Int) ≤ -1)), List.length_map,
      List.length_take, List.length_insertionSort, List.length_map]
    decide
  intro hnil
  rw [hnil] at h
  simp at h

/-- **C4** (amended). `recommend` never raises for `top_n ≤ 0`, and with
`top_n = 0` returns empty ranked and scoring lists; but for negative
`top_n` it follows Python slice semantics, returning all but the last
`|top_n|` ranked sessions — empty only when `|top_n|` reaches the pool
size. -/
theorem recommend_nonpositive_top (m : Manifest) (interests : List String)
    (top_n : Int) (h : top_n < 0) :
    ((recommend m interests 0).sessions = []
      ∧ (recommend m interests 0).scoring = [])
    ∧ ((recommend m interests top_n).sessions.length
        = ((m.sessions.length : Int) + top_n).toNat
      ∧ (recommend m interests top_n).scoring.length
        = ((m.sessions.length : Int) + top_n).toNat) := by
  have hneg : ¬ (0 ≤ top_n) := not_le.mpr h
  refine ⟨⟨?_, ?_⟩, ?_, ?_⟩
  · simp [recommend, pySlice]
  · simp [recommend, pySlice]
  · simp only [recommend, pySlice, if_neg hneg, List.length_map,
      List.length_take, List.length_insertionSort]
    omega
  · simp only [recommend, pySlice, if_neg hneg, List.length_map,
      List.length_take, List.length_insertionSort]
    omega

/-- Witness for **C4** (amended) at `top_n = -1` on a two-session pool. -/
theorem recommend_nonpositive_top_witness :
    ((recommend exM exI 0).sessions = []
      ∧ (recommend exM exI 0).scoring = [])
    ∧ ((recommend exM exI (-1)).sessions.length
        = ((exM.sessions.length : Int) + (-1)).toNat
      ∧ (recommend exM exI (-1)).scoring.length
        = ((exM.sessions.length : Int) + (-1)).toNat) :=
  recommend_nonpositive_top exM exI (-1) (by decide)

/-- **C7.** `explain` looks a session up by case-insensitive exact title
match; when no candidate matches, it returns the structured not-found
result carrying the requested title (and, being a total function, it
raises nothing). -/
theorem explain_not_found (m : Manifest) (title : String)
    (interests : List String)
    (h : ∀ s ∈ m.sessions, pyLower s.title ≠ pyLower title) :
    explain m title interests = ExplainResult.notFound title := by
  have hf : m.sessions.find? (fun s => pyLower s.title == pyLower title)
      = none := by
    rw [List.find?_eq_none]
    intro s hs
    simpa using h s hs
  unfold explain
  rw [hf]

/-- Witness for **C7**: the title `"C"` matches no candidate in `exM`. -/
theorem explain_not_found_witness :
    explain exM ("C") exI = ExplainResult.notFound ("C") :=
  explain_not_found exM ("C") exI (by decide)

/-- **C9.** `recommend_from_graph` fails before fetching any events when
the interests are empty (message "At least one interest is required") or
`top ≤ 0` (message "top must be a positive integer") — the outcome is
then independent of the event source — and, when no weights are given,
behaves exactly as with the defaults
`interest = 2.0, popularity = 0.5, diversity = 0.3`. -/
theorem recommend_from_graph_validation
    (getEvents getEvents' : Int → List Session) (interests : List String)
    (top : Int) (weights : Option Weights) :
    (interests = [] →
        recommend_from_graph getEvents interests top weights
          = Except.error ("At least one interest is required"))
    ∧ (interests ≠ [] → top ≤ 0 →
        recommend_from_graph getEvents interests top weights
          = Except.error ("top must be a positive integer"))
    ∧ ((interests = [] ∨ top ≤ 0) →
        recommend_from_graph getEvents interests top weights
          = recommend_from_graph getEvents' interests top weights)
    ∧ recommend_from_graph getEvents interests top none
        = recommend_from_graph getEvents interests top (some defaultGraphWeights)
    ∧ defaultGraphWeights
        = { interest := 2, popularity := 1 / 2, diversity := 3 / 10 } := by
  refine ⟨?_, ?_, ?_, ?_, rfl⟩
  · intro h
    subst h
    rfl
  · intro h1 h2
    cases interests with
    | nil => exact absurd rfl h1
    | cons a l => simp [recommend_from_graph, h2]
  · rintro (h | h)
    · subst h
      rfl
    · cases interests with
      | nil => rfl
      | cons a l => simp [recommend_from_graph, h]
  · rfl

/-- Witness for **C9** at concrete inputs. -/
theorem recommend_from_graph_validation_witness :
    recommend_from_graph exG0 [] 3 none
        = Except.error ("At least one interest is required")
    ∧ recommend_from_graph exG0 [("ai")] 0 none
        = Except.error ("top must be a positive integer")
    ∧ recommend_from_graph exG0 [] (-2) none
        = recommend_from_graph exG1 [] (-2) none :=
  ⟨(recommend_from_graph_validation exG0 exG1 [] 3 none).1 rfl,
   (recommend_from_graph_validation exG0 exG1 [("ai")] 0 none).2.1
     (by decide) (by decide),
   (recommend_from_graph_validation exG0 exG1 [] (-2) none).2.2.1 (Or.inl rfl)⟩

/-! Stability of the descending sort: the elements of any fixed score
class come out of the sort in their input order. -/

/-- Inserting `x` walks past only strictly higher scores, so each score
class either gains `x` in front (when `x` belongs to it) or is left
untouched. -/
theorem filter_orderedInsert (c : ℚ) (x : ScoredSession)
    (l : List ScoredSession) :
    (List.orderedInsert scoreGE x l).filter (fun r => decide (r.score = c))
      = if x.score = c then x :: l.filter (fun r => decide (r.score = c))
        else l.filter (fun r => decide (r.score = c)) := by
  induction l with
  | nil =>
      by_cases hxc : x.score = c
      · simp [List.orderedInsert, hxc]
      · simp [List.orderedInsert, hxc]
  | cons b l ih =>
      rw [List.orderedInsert]
      by_cases hxb : scoreGE x b
      · rw [if_pos hxb]
        by_cases hxc : x.score = c
        · simp [List.filter_cons, hxc]
        · simp [List.filter_cons, hxc]
      · rw [if_neg hxb]
        have hbx : x.score < b.score := lt_of_not_le hxb
        by_cases hbc : b.score = c
        · have hxc : x.score ≠ c := by
            intro h
            exact absurd (le_of_eq (hbc.trans h.symm)) hxb
          rw [List.filter_cons_of_pos (by simp [hbc]), ih, if_neg hxc,
            List.filter_cons_of_pos (by simp [hbc]), if_neg hxc]
        · by_cases hxc : x.score = c
          · rw [List.filter_cons_of_neg (by simp [hbc]), ih, if_pos hxc,
              if_pos hxc, List.filter_cons_of_neg (by simp [hbc])]
          · rw [List.filter_cons_of_neg (by simp [hbc]), ih, if_neg hxc,
              if_neg hxc, List.filter_cons_of_neg (by simp [hbc])]

/-- Stability of the descending insertion sort: filtering the sorted list
to any one score value yields exactly the input's sublist of that score,
in input order. -/
theorem filter_insertionSort (c : ℚ) (l : List ScoredSession) :
    (List.insertionSort scoreGE l).filter (fun r => decide (r.score = c))
      = l.filter (fun r => decide (r.score = c)) := by
  induction l with
  | nil => rfl
  | cons x l ih =>
      rw [List.insertionSort, filter_orderedInsert]
      by_cases hxc : x.score = c
      · rw [if_pos hxc, ih, List.filter_cons_of_pos (by simp [hxc])]
      · rw [if_neg hxc, ih, List.filter_cons_of_neg (by simp [hxc])]

/-- `mkEntry` preserves scores, so filtering entries by score commutes
with building the scoring list. -/
theorem filter_map_mkEntry (c : ℚ) (l : List ScoredSession) :
    (l.map mkEntry).filter (fun e => decide (e.score = c))
      = (l.filter (fun r => decide (r.score = c))).map mkEntry := by
  induction l with
  | nil => rfl
  | cons x l ih =>
      by_cases hxc : x.score = c
      · rw [List.map_cons, List.filter_cons_of_pos (by simp [mkEntry, hxc]),
          List.filter_cons_of_pos (by simp [hxc]), List.map_cons, ih]
      · rw [List.map_cons, List.filter_cons_of_neg (by simp [mkEntry, hxc]),
          List.filter_cons_of_neg (by simp [hxc]), ih]

/-- `pySlice` always yields an initial segment. -/
theorem pySlice_eq_take {α : Type} (n : Int) (l : List α) :
    ∃ k, pySlice n l = l.take k := by
  rw [pySlice]
  by_cases h : 0 ≤ n
  · exact ⟨n.toNat, if_pos h⟩
  · exact ⟨((l.length : Int) + n).toNat, if_neg h⟩

/-- **C2.** The ranked output of `recommend` is sorted in descending
order of score, and the sort is stable: restricted to any one score
value, the ranked scoring entries are an initial segment of the
candidate pool's entries with that score, in the pool's original
order. -/
theorem recommend_sorted_stable (m : Manifest) (interests : List String)
    (top_n : Int) :
    ((recommend m interests top_n).scoring).Pairwise
        (fun a b => b.score ≤ a.score)
      ∧ ∀ c : ℚ,
        ((recommend m interests top_n).scoring.filter
            (fun e => decide (e.score = c)))
          <+: (((m.sessions.map
                (fun s => score_session s interests m.weights)).map
                  mkEntry).filter (fun e => decide (e.score = c))) := by
  obtain ⟨k, hk⟩ :=
    pySlice_eq_take top_n
      (List.insertionSort scoreGE
        (m.sessions.map (fun s => score_session s interests m.weights)))
  have hscoring : (recommend m interests top_n).scoring
      = (pySlice top_n
          (List.insertionSort scoreGE
            (m.sessions.map
              (fun s => score_session s interests m.weights)))).map mkEntry :=
    rfl
  constructor
  · rw [hscoring, hk, List.pairwise_map]
    exact ((List.sorted_insertionSort scoreGE _).sublist
      (List.take_sublist _ _)).imp (fun h => h)
  · intro c
    rw [hscoring, hk, filter_map_mkEntry, filter_map_mkEntry]
    have hsplit :
        (List.insertionSort scoreGE
            (m.sessions.map (fun s => score_session s interests m.weights))
          ).filter (fun r => decide (r.score = c))
        = ((List.insertionSort scoreGE
              (m.sessions.map (fun s => score_session s interests m.weights))
            ).take k).filter (fun r => decide (r.score = c))
          ++ ((List.insertionSort scoreGE
              (m.sessions.map (fun s => score_session s interests m.weights))
            ).drop k).filter (fun r => decide (r.score = c)) := by
      rw [← List.filter_append, List.take_append_drop]
    rw [← filter_insertionSort c
      (m.sessions.map (fun s => score_session s interests m.weights)),
      hsplit, List.map_append]
    exact List.prefix_append _ _

end EventAgent
